import Mathlib

/-!
Verification of the attribute and slot engine of django-web-components.

This file gives a shallow embedding, in Lean 4, of the functions of
`django_web_components/attributes.py`, `django_web_components/utils.py` and
`django_web_components/templatetags/components.py`, and proves properties of
that embedding.

Modelling conventions:
* Python values that flow through the attribute machinery are modelled by the
  inductive type `Value` (plain strings, Django safe strings, booleans, `None`,
  lists and dicts).
* Python dicts are modelled as association lists in insertion order;
  `dictInsert` mirrors Python assignment `d[k] = v` (an existing key keeps its
  position, a new key is appended), `dictGet` mirrors `d.get(k)`.
* The host template engine (Django) is an external collaborator.  Its
  primitives (`escape`, `conditional_escape`, `format_html`, `mark_safe`,
  `FilterExpression`, the context stack) are modelled at their interface,
  following their documented behaviour.
* Python object identity of `SlotNode` objects matters for the clone-on-render
  property, so slot nodes live in an explicit store (`Store`, a heap of
  `SlotNode` records addressed by `Nat` ids); mutation is explicit state
  passing on the store.
-/

/-- Python values flowing through the attribute machinery. -/
inductive Value where
  | str (s : String)
  | safeStr (s : String)
  | bool (b : Bool)
  | pynone
  | list (vs : List Value)
  | dict (entries : List (String × Value))
deriving Repr

/-- An attribute bag: a Python dict in insertion order, as built by
`AttributeBag`. -/
abbrev AttrBag := List (String × Value)

/-- `d.get(k)` on an insertion-ordered dict. -/
def dictGet {α : Type} (m : List (String × α)) (k : String) : Option α :=
  match m with
  | [] => none
  | (k0, v0) :: rest => if k0 = k then some v0 else dictGet rest k

/-- `d[k] = v` on an insertion-ordered dict: an existing key keeps its
position, a new key is appended at the end. -/
def dictInsert {α : Type} (m : List (String × α)) (k : String) (v : α) :
    List (String × α) :=
  match m with
  | [] => [(k, v)]
  | (k0, v0) :: rest =>
      if k0 = k then (k, v) :: rest else (k0, v0) :: dictInsert rest k v

/-- Python truthiness of a `Value` (`if value:`). -/
def truthy : Value → Bool
  | .str s => !(s == "")
  | .safeStr s => !(s == "")
  | .bool b => b
  | .pynone => false
  | .list vs => !vs.isEmpty
  | .dict kvs => !kvs.isEmpty

mutual

/-- Python `==` between values.  A `SafeString` compares equal to the plain
string with the same contents, as in Python, where `SafeString` subclasses
`str`.  (Python compares dicts ignoring order; the order-sensitive dict branch
below is never reached by `merge_attributes`, whose left operand of the
comparison is always `None` or a string.) -/
def pyEq : Value → Value → Bool
  | .str a, .str b => a == b
  | .str a, .safeStr b => a == b
  | .safeStr a, .str b => a == b
  | .safeStr a, .safeStr b => a == b
  | .bool a, .bool b => a == b
  | .pynone, .pynone => true
  | .list a, .list b => pyEqList a b
  | .dict a, .dict b => pyEqEntries a b
  | _, _ => false

/-- Python `==` on lists, elementwise. -/
def pyEqList : List Value → List Value → Bool
  | [], [] => true
  | a :: rest1, b :: rest2 => pyEq a b && pyEqList rest1 rest2
  | _, _ => false

/-- Structural comparison of dict entries (see `pyEq`). -/
def pyEqEntries : List (String × Value) → List (String × Value) → Bool
  | [], [] => true
  | (k1, v1) :: rest1, (k2, v2) :: rest2 =>
      k1 == k2 && pyEq v1 v2 && pyEqEntries rest1 rest2
  | _, _ => false

end

/-- The ASCII whitespace characters removed by Python `str.strip()`. -/
def pyWhitespace (c : Char) : Bool :=
  c == ' ' || c == '\t' || c == '\n' || c == '\r' ||
    c == Char.ofNat 11 || c == Char.ofNat 12

/-- `str.strip()` on the character list: remove trailing, then leading,
whitespace (the order is irrelevant to the result). -/
def pyStripChars (l : List Char) : List Char :=
  ((l.reverse.dropWhile pyWhitespace).reverse).dropWhile pyWhitespace

/-- Python `str.strip()`. -/
def pyStrip (s : String) : String :=
  String.mk (pyStripChars s.data)

/-!  `normalize_class`, from `attributes.py` lines 75-102.  Each branch builds
`result` exactly as the source does and the function returns
`result.strip()`. -/

/-- The `for key, val in value.items()` loop of `normalize_class` over a dict:
each key with a truthy value is appended followed by a space. -/
def normalizeClassDict : List (String × Value) → String → String
  | [], result => result
  | (key, val) :: rest, result =>
      normalizeClassDict rest (if truthy val then result ++ key ++ " " else result)

mutual

/-- `normalize_class` (`attributes.py`): normalizes a class value (a string, a
list/tuple, or a dict of conditionally enabled classes) into a single string;
every branch ends in `result.strip()`. -/
def normalize_class : Value → String
  | .str s => pyStrip s
  | .safeStr s => pyStrip s
  | .bool _ => pyStrip ""
  | .pynone => pyStrip ""
  | .list vs => pyStrip (normalizeClassList vs "")
  | .dict kvs => pyStrip (normalizeClassDict kvs "")

/-- The `for v in value` loop of `normalize_class` over a list, threading the
`result` accumulator: each recursively normalized element that is non-empty is
appended followed by a space. -/
def normalizeClassList : List Value → String → String
  | [], result => result
  | v :: vs, result =>
      let normalized := normalize_class v
      normalizeClassList vs
        (if normalized == "" then result else result ++ normalized ++ " ")

end

/-- The body of the inner `for key, value in to_merge.items()` loop of
`merge_attributes` (`attributes.py` lines 44-51): a `class` value is appended
to the accumulated class value via `normalize_class` unless it compares equal
to it; an empty-string key is dropped; any other key is assigned, overwriting. -/
def mergeInto (result : AttrBag) (kv : String × Value) : AttrBag :=
  let key := kv.1
  let value := kv.2
  if key = "class" then
    let klass := (dictGet result "class").getD Value.pynone
    if pyEq klass value then result
    else dictInsert result "class" (Value.str (normalize_class (Value.list [klass, value])))
  else if key = "" then result
  else dictInsert result key value

/-- `merge_attributes(*args)` (`attributes.py` lines 32-53). -/
def merge_attributes (args : List AttrBag) : AttrBag :=
  args.foldl (fun result to_merge => to_merge.foldl mergeInto result) []

/-!  Serialization (`attributes_to_string`, `attributes.py` lines 15-29).
The escaping primitives are Django's; they are external to the repository and
modelled at their interface: `escape` rewrites the five HTML special
characters, `conditional_escape` escapes everything that is not already marked
safe, `mark_safe` tags a string as safe. -/

/-- Django `escape` on one character. -/
def escapeChar (c : Char) : String :=
  if c = '&' then "&amp;"
  else if c = '<' then "&lt;"
  else if c = '>' then "&gt;"
  else if c = Char.ofNat 34 then "&quot;"
  else if c = Char.ofNat 39 then "&#x27;"
  else String.singleton c

/-- Django `escape`: replace the HTML special characters by entities. -/
def escape (s : String) : String :=
  String.join (s.data.map escapeChar)

/-- The single-quote character, used by the canonical rendering of the host
`str()` on containers. -/
def pyQuote : String := String.singleton (Char.ofNat 39)

mutual

/-- Canonical model of the host `repr()` on values (strings quoted); only the
string scalar cases are exercised by the repository. -/
def pyReprOf : Value → String
  | .str s => pyQuote ++ s ++ pyQuote
  | .safeStr s => pyQuote ++ s ++ pyQuote
  | .bool b => if b then "True" else "False"
  | .pynone => "None"
  | .list vs => "[" ++ pyStrElems vs ++ "]"
  | .dict kvs => "\x7b" ++ pyStrEntries kvs ++ "\x7d"

/-- Comma-separated `repr`s of list elements. -/
def pyStrElems : List Value → String
  | [] => ""
  | [v] => pyReprOf v
  | v :: vs => pyReprOf v ++ ", " ++ pyStrElems vs

/-- Comma-separated `repr`s of dict entries. -/
def pyStrEntries : List (String × Value) → String
  | [] => ""
  | [(k, v)] => pyQuote ++ k ++ pyQuote ++ ": " ++ pyReprOf v
  | (k, v) :: rest =>
      pyQuote ++ k ++ pyQuote ++ ": " ++ pyReprOf v ++ ", " ++ pyStrEntries rest

end

/-- Canonical model of the host `str()` on values. -/
def pyStrOf : Value → String
  | .str s => s
  | .safeStr s => s
  | .bool b => if b then "True" else "False"
  | .pynone => "None"
  | .list vs => "[" ++ pyStrElems vs ++ "]"
  | .dict kvs => "\x7b" ++ pyStrEntries kvs ++ "\x7d"

/-- Django `conditional_escape`: a value already marked safe is returned
unchanged, anything else is converted to a string and escaped. -/
def conditional_escape : Value → String
  | .safeStr s => s
  | v => escape (pyStrOf v)

/-- A Django string together with its safety mark; `mark_safe` produces the
marked variant.  Models `SafeString` versus plain `str` for the output of
`attributes_to_string`. -/
structure MarkedString where
  string : String
  isSafe : Bool
deriving Repr, DecidableEq

/-- Django `mark_safe`. -/
def mark_safe (s : String) : MarkedString := ⟨s, true⟩

/-- Django `format_html('\x7b\x7d="\x7b\x7d"', key, value)`: both arguments go
through `conditional_escape`, then are interpolated. -/
def format_html_kv (key : String) (value : Value) : String :=
  conditional_escape (Value.str key) ++ "=\"" ++ conditional_escape value ++ "\""

/-- The loop body of `attributes_to_string` (`attributes.py` lines 21-27):
skip `None` and `False`, emit the escaped key alone for `True`, otherwise emit
`key="value"` via `format_html`. -/
def attrListStep (attr_list : List String) (kv : String × Value) : List String :=
  match kv.2 with
  | Value.pynone => attr_list
  | Value.bool false => attr_list
  | Value.bool true => attr_list ++ [conditional_escape (Value.str kv.1)]
  | v => attr_list ++ [format_html_kv kv.1 v]

/-- `attributes_to_string(attributes)` (`attributes.py` lines 15-29): build
`attr_list` entry by entry, join with single spaces, and `mark_safe` the
result. -/
def attributes_to_string (attributes : AttrBag) : MarkedString :=
  let attr_list := attributes.foldl attrListStep []
  mark_safe (String.intercalate " " attr_list)

/-- `AttributeBag.__str__` (`attributes.py` lines 7-12): delegates to
`attributes_to_string`. -/
def AttributeBag.str (self : AttrBag) : MarkedString :=
  attributes_to_string self

/-!  Specification-side serializer, written from the words of the spec
("For each key in insertion order: skip if value is null or false; if value
is true, emit the escaped key alone; otherwise emit key=\"escaped(value)\"."),
to be compared with `attributes_to_string` above. -/

/-- One entry of the serialization, following the wording of the spec. -/
def serializeEntrySpec (kv : String × Value) : Option String :=
  match kv.2 with
  | Value.pynone => none
  | Value.bool false => none
  | Value.bool true => some (escape kv.1)
  | v => some (escape kv.1 ++ "=\"" ++ conditional_escape v ++ "\"")

/-- The serialization contract as worded by the spec: the emitted entries, in
insertion order, joined by single spaces, marked safe. -/
def attributesToStringSpec (attributes : AttrBag) : MarkedString :=
  mark_safe (String.intercalate " " (attributes.filterMap serializeEntrySpec))

/-!  Tag parsing (`utils.py` and `templatetags/components.py`).  The host
expression compiler (`parser.compile_filter`) is external; it is modelled at
its interface: `True`/`False`/`None` become literals, a quoted token becomes a
string literal, anything else a variable reference. -/

/-- A compiled Django `FilterExpression`: either a literal or a variable
reference, resolved against a context at render time. -/
inductive FilterExpr where
  | const (v : Value)
  | var (name : String)
deriving Repr

/-- The rendering context: a stack of variable scopes, innermost first
(`context.update` pushes a scope, leaving `with` pops it). -/
abbrev Ctx := List (List (String × Value))

/-- Look a name up in the context, innermost scope first. -/
def ctxLookup : Ctx → String → Option Value
  | [], _ => none
  | scope :: rest, name =>
      match dictGet scope name with
      | some v => some v
      | none => ctxLookup rest name

/-- `FilterExpression.resolve(context)`: a missing variable yields the engine
default `string_if_invalid`, the empty string. -/
def FilterExpr.resolve (self : FilterExpr) (context : Ctx) : Value :=
  match self with
  | .const v => v
  | .var name => (ctxLookup context name).getD (Value.str "")

/-- `FilterExpression.resolve(context, ignore_failures=True)`: a missing
variable yields `None`. -/
def FilterExpr.resolveIgnore (self : FilterExpr) (context : Ctx) : Value :=
  match self with
  | .const v => v
  | .var name => (ctxLookup context name).getD Value.pynone

/-- `parser.compile_filter(token)` (host interface): literal booleans and
`None`, quoted string literals, else a variable reference.  Numeric literals
are not exercised by this engine and are treated as variables. -/
def compile_filter (token : String) : FilterExpr :=
  if token = "True" then .const (.bool true)
  else if token = "False" then .const (.bool false)
  else if token = "None" then .const .pynone
  else
    match token.data with
    | c :: rest =>
        if (c = Char.ofNat 34 ∨ c = Char.ofNat 39) ∧ rest ≠ [] ∧
            rest.getLast? = some c then
          .const (.str (String.mk (rest.dropLast)))
        else .var token
    | [] => .var token

/-- The attribute-name characters of `kwarg_re` (`utils.py` lines 7-18):
word characters plus `-`, `:`, `@`, `.`, `_`. -/
def nameChar (c : Char) : Bool :=
  c.isAlphanum || c = '_' || c = '-' || c = ':' || c = '@' || c = '.'

/-- `kwarg_re.match(bit)` (`utils.py`): the regex `(?:(name+)=)?(.+)`.
Returns the optional keyword group and the value group.  When the bit does not
start with a non-empty run of name characters followed by `=` and a non-empty
remainder, the whole (non-empty) bit is the value and the keyword group is
absent. -/
def matchKwarg (bit : String) : Option String × String :=
  let name := bit.data.takeWhile nameChar
  match bit.data.dropWhile nameChar with
  | c :: v =>
      if c = '=' ∧ name ≠ [] ∧ v ≠ [] then (some (String.mk name), String.mk v)
      else (none, bit)
  | [] => (none, bit)

/-- The `while bits` loop of `token_kwargs` (`utils.py` lines 44-52): consume
keyword-formatted bits, stopping at the first bit with no keyword group. -/
def tokenKwargsLoop : List String → List (String × FilterExpr) →
    List (String × FilterExpr)
  | [], kwargs => kwargs
  | bit :: rest, kwargs =>
      match matchKwarg bit with
      | (some key, value) =>
          tokenKwargsLoop rest (dictInsert kwargs key (compile_filter value))
      | (none, _) => kwargs

/-- `token_kwargs(bits, parser)` (`utils.py` lines 23-52): parse keyword
arguments, returning immediately when the first bit is not keyword-formatted. -/
def token_kwargs (bits : List String) : List (String × FilterExpr) :=
  match bits with
  | [] => []
  | bit :: _ =>
      match (matchKwarg bit).1 with
      | none => []
      | some _ => tokenKwargsLoop bits []

/-- `split_attributes(attributes)` (`attributes.py` lines 105-119): partition
the parsed attributes into special attributes (`:let`) and ordinary ones,
preserving order. -/
def split_attributes (attributes : List (String × FilterExpr)) :
    List (String × FilterExpr) × List (String × FilterExpr) :=
  (attributes.filter (fun kv => kv.1 == ":let"),
   attributes.filter (fun kv => !(kv.1 == ":let")))

/-- The bit rewriting of `create_component_tag` and `do_slot`
(`templatetags/components.py` lines 40-41 and 141-142): bits that are not
keyword arguments are interpreted as `True` values. -/
def componentAllBits (remaining_bits : List String) : List String :=
  remaining_bits.map
    (fun bit => if bit.data.contains '=' then bit else bit ++ "=True")

/-!  The node tree (`templatetags/components.py`).  Child nodes produced by
the host parser are either `SlotNode` objects or ordinary template nodes
(text, variable interpolation); the ordinary ones are modelled by `TNode`,
the host engine's primitive nodes.  `SlotNode` objects carry mutable
per-object state (`attributes` is assigned by `resolve_attributes`), so they
live in an explicit heap: `Store` is the list of allocated `SlotNode`
records and a `ChildNode.slotRef` is a reference into it. -/

/-- A primitive node of the host template engine (`TextNode`,
`VariableNode`). -/
inductive TNode where
  | text (s : String)
  | var (name : String)
deriving Repr, DecidableEq

/-- The `SlotNode` class (`templatetags/components.py` lines 157-187).  The
constructor sets `attributes` to the empty `AttributeBag`; it is reassigned
only by `resolve_attributes`. -/
structure SlotNode where
  name : String
  nodelist : List TNode
  unresolved_attributes : List (String × FilterExpr)
  special : List (String × FilterExpr)
  attributes : AttrBag
deriving Repr

/-- The heap of allocated `SlotNode` objects; a `Nat` id is an object
reference. -/
abbrev Store := List SlotNode

/-- A child node inside a component invocation: a reference to a `SlotNode`
object, or an ordinary template node. -/
inductive ChildNode where
  | slotRef (id : Nat)
  | plain (node : TNode)
deriving Repr, DecidableEq

/-- The dict comprehension `{key: value.resolve(context) for ...}` used to
resolve an attribute mapping (keys are unique in the source mapping). -/
def resolveAttributes (context : Ctx) (attrs : List (String × FilterExpr)) :
    AttrBag :=
  attrs.map (fun kv => (kv.1, kv.2.resolve context))

/-- `SlotNode.resolve_attributes(context)` (`templatetags/components.py`
lines 174-177): store the resolved attributes on the node. -/
def SlotNode.resolve_attributes (self : SlotNode) (context : Ctx) : SlotNode :=
  { self with attributes := resolveAttributes context self.unresolved_attributes }

/-- `app_settings.DEFAULT_SLOT_NAME` with its default configuration
(`conf.py`). -/
def DEFAULT_SLOT_NAME : String := "inner_block"

/-- The `ComponentNode` class (`templatetags/components.py` lines 84-92). -/
structure ComponentNode where
  name : String
  unresolved_attributes : List (String × FilterExpr)
  slots : List (String × List ChildNode)
deriving Repr

/-- `slots[slot_name].append(node)`: append to the list stored under an
existing key. -/
def dictAppend {α : Type} (m : List (String × List α)) (k : String) (x : α) :
    List (String × List α) :=
  m.map (fun kv => if kv.1 = k then (kv.1, kv.2 ++ [x]) else kv)

/-- The body of the `for node in nodelist` loop of `do_component`
(`templatetags/components.py` lines 58-69): a `SlotNode` child is filed under
its own name (the slot list is created on first sight); other children are
collected into the default slot elsewhere. -/
def bucketChild (store : Store) (slots : List (String × List ChildNode))
    (node : ChildNode) : List (String × List ChildNode) :=
  match node with
  | .slotRef id =>
      let slot_name := (store[id]?.map SlotNode.name).getD ""
      let slots :=
        if (dictGet slots slot_name).isSome then slots
        else slots ++ [(slot_name, [])]
      dictAppend slots slot_name (.slotRef id)
  | .plain _ => slots

/-- The `slots` mapping built by `do_component` (`templatetags/components.py`
lines 46-73): the mapping starts with an empty list under the default slot
name, slot children are bucketed by the loop, and the default `SlotNode`
(at id `defaultId`) is appended under the default name only when its body is
non-empty. -/
def componentSlots (store : Store) (nodelist : List ChildNode) (defaultId : Nat)
    (defaultBody : List TNode) : List (String × List ChildNode) :=
  let slots := nodelist.foldl (bucketChild store) [(DEFAULT_SLOT_NAME, [])]
  if defaultBody.length > 0 then
    dictAppend slots DEFAULT_SLOT_NAME (ChildNode.slotRef defaultId)
  else slots

/-- The non-slot children collected by the `for node in nodelist` loop into
the default slot's body (`default_slot.nodelist.append(node)`). -/
def defaultSlotBody (nodelist : List ChildNode) : List TNode :=
  nodelist.filterMap (fun c => match c with | .plain t => some t | .slotRef _ => none)

/-- `do_component` inside `create_component_tag` (`templatetags/components.py`
lines 28-79).  The host parser has already produced the child node list
(empty for the inline form) and split the token into bits; the tag formatter
comparison that decides between inline and block form is host territory.  A
fresh default `SlotNode` is always allocated, with the non-slot children as
its body; the `slots` mapping always receives an (initially empty) list under
the default slot name, and the default `SlotNode` is appended to it only when
its body is non-empty. -/
def do_component (component_name : String) (remaining_bits : List String)
    (nodelist : List ChildNode) (store : Store) : Store × ComponentNode :=
  let all_bits := componentAllBits remaining_bits
  let raw_attributes := token_kwargs all_bits
  let special := (split_attributes raw_attributes).1
  let attrs := (split_attributes raw_attributes).2
  let defaultBody := defaultSlotBody nodelist
  let default_slot : SlotNode :=
    { name := DEFAULT_SLOT_NAME, nodelist := defaultBody,
      unresolved_attributes := [], special := special, attributes := [] }
  let defaultId := store.length
  let store := store ++ [default_slot]
  let slots := componentSlots store nodelist defaultId defaultBody
  (store, { name := component_name, unresolved_attributes := attrs, slots := slots })

/-- The arguments `ComponentNode.render` hands to `render_component`
(`templatetags/components.py` lines 124-129); the dispatch to the registry
and the component implementation is outside the slot heap. -/
structure RenderCall where
  name : String
  attributes : AttrBag
  slots : List (String × List ChildNode)
deriving Repr

/-- The body of the `for slot in slot_list` loop of `ComponentNode.render`
(`templatetags/components.py` lines 106-120): a `SlotNode` is cloned (the
clone's constructor sets `attributes` to the empty bag), the clone's
attributes are resolved, and the clone is appended to the render-local slot
list; a non-`SlotNode` entry is passed through unchanged. -/
def cloneSlotStep (slot_name : String) (context : Ctx)
    (acc : Store × List (String × List ChildNode)) (slot : ChildNode) :
    Store × List (String × List ChildNode) :=
  let store := acc.1
  let slots := acc.2
  match slot with
  | ChildNode.slotRef id =>
      match store[id]? with
      | some slotNode =>
          let cloned_slot : SlotNode :=
            { name := slotNode.name, nodelist := slotNode.nodelist,
              unresolved_attributes := slotNode.unresolved_attributes,
              special := slotNode.special, attributes := [] }
          let cloned_slot := cloned_slot.resolve_attributes context
          (store ++ [cloned_slot], dictAppend slots slot_name (ChildNode.slotRef store.length))
      | none => (store, dictAppend slots slot_name slot)
  | ChildNode.plain _ => (store, dictAppend slots slot_name slot)

/-- The body of the `for slot_name, slot_list in self.slots.items()` loop of
`ComponentNode.render` (`templatetags/components.py` lines 101-120). -/
def cloneSlotList (context : Ctx) (acc : Store × List (String × List ChildNode))
    (pair : String × List ChildNode) : Store × List (String × List ChildNode) :=
  let slots :=
    if (dictGet acc.2 pair.1).isSome then acc.2 else acc.2 ++ [(pair.1, [])]
  pair.2.foldl (cloneSlotStep pair.1 context) (acc.1, slots)

/-- `ComponentNode.render(context)` (`templatetags/components.py` lines
94-129): clone every slot's `SlotNode`s, resolve the clones' attributes and
the component's own attributes, and hand everything to `render_component`.
The returned `RenderCall` carries the arguments of that external call. -/
def ComponentNode.render (self : ComponentNode) (store : Store) (context : Ctx) :
    Store × RenderCall :=
  let folded := self.slots.foldl (cloneSlotList context) (store, [])
  let attributes := resolveAttributes context self.unresolved_attributes
  (folded.1, { name := self.name, attributes := attributes, slots := folded.2 })

/-- A sequence of renders of the same parsed `ComponentNode`, each against its
own context, threading the object heap. -/
def renderMany (self : ComponentNode) (store : Store) (contexts : List Ctx) :
    Store :=
  contexts.foldl (fun st context => (self.render st context).1) store

/-- `SlotNodeList.attributes` (`templatetags/components.py` lines 190-195):
the attributes of the single element when the list has exactly one element and
that element has an `attributes` attribute (`SlotNode`s do, primitive nodes do
not), else an empty `AttributeBag`. -/
def SlotNodeList.attributes (store : Store) (self : List ChildNode) : AttrBag :=
  match self with
  | [ChildNode.slotRef id] => (store[id]?.map SlotNode.attributes).getD []
  | _ => []

/-!  Slot rendering (`SlotNode.render` and `RenderSlotNode.render_slot`,
`templatetags/components.py` lines 179-187 and 237-253). -/

/-- Rendering of a primitive host node against a context: a `TextNode` emits
its text, a `VariableNode` resolves and escapes (a missing variable renders
as the engine default, the empty string). -/
def renderTNode (context : Ctx) : TNode → String
  | .text s => s
  | .var name =>
      match ctxLookup context name with
      | some v => conditional_escape v
      | none => ""

/-- `NodeList.render(context)` on primitive nodes: concatenation. -/
def renderNodeList (nodelist : List TNode) (context : Ctx) : String :=
  String.join (nodelist.map (renderTNode context))

/-- `SlotNode.render(context)` (`templatetags/components.py` lines 179-187):
resolve the slot's own attributes into a local `attributes` binding, push it
as a context scope, and render the body.  This assigns nothing to the node. -/
def SlotNode.render (self : SlotNode) (context : Ctx) : String :=
  let attributes := resolveAttributes context self.unresolved_attributes
  renderNodeList self.nodelist ([("attributes", Value.dict attributes)] :: context)

/-- The render-time error channel of the engine.  The spec's error taxonomy
names `MissingScopeArgument` for a scope binding declared without an
argument; a Python `raise` in the embedded code would surface as
`Except.error`. -/
inductive RenderError where
  | missingScopeArgument
deriving Repr, DecidableEq

/-- The value `render_slot` dispatches on: a `SlotNode` object or any other
renderable node (`isinstance(slot, SlotNode)`). -/
inductive SlotRenderable where
  | slot (s : SlotNode)
  | node (t : TNode)
deriving Repr

/-- The context key used by `context.update({let: argument})`: the resolved
scope-binding name (a string in every use of the engine). -/
def contextKeyOfValue : Value → String
  | .str s => s
  | .safeStr s => s
  | v => pyStrOf v

/-- `RenderSlotNode.render_slot(slot, argument, context)`
(`templatetags/components.py` lines 237-253): when the slot is a `SlotNode`
that declares the `:let` special attribute and a truthy argument was passed,
the resolved binding name is bound to the argument in a pushed scope around
the slot's render; in every other case the slot is rendered unchanged.  No
code path raises. -/
def RenderSlotNode.render_slot (slot : SlotRenderable) (argument : Option Value)
    (context : Ctx) : Except RenderError String :=
  match slot with
  | .slot s =>
      let letVal :=
        match dictGet s.special ":let" with
        | some e => e.resolveIgnore context
        | none => Value.pynone
      match argument with
      | some arg =>
          if truthy letVal && truthy arg then
            Except.ok (s.render ([(contextKeyOfValue letVal, arg)] :: context))
          else Except.ok (s.render context)
      | none => Except.ok (s.render context)
  | .node t => Except.ok (renderTNode context t)

/-!  Specification-side definitions for `normalize_class`, written from the
words of the spec ("String → itself.  Sequence → recursively normalize each
element, join non-empty results ...  Mapping → join keys whose value is
truthy, space-separated, then trim."), to be compared with `normalize_class`
above. -/

/-- Join strings with single separating spaces. -/
def joinSpace : List String → String
  | [] => ""
  | [s] => s
  | s :: rest => s ++ " " ++ joinSpace rest

/-- Join strings, a space after each one (the shape the accumulating loops of
`normalize_class` produce before the final strip). -/
def joinTrail : List String → String
  | [] => ""
  | s :: rest => s ++ " " ++ joinTrail rest

mutual

/-- `normalize_class` as worded by the spec, with the string clause amended
to account for the final strip: a string is stripped; a sequence contributes
its recursively normalized non-empty elements joined by single spaces; a
mapping contributes its keys with truthy values joined by single spaces; the
joined result is stripped. -/
def normalizeClassSpec : Value → String
  | .str s => pyStrip s
  | .safeStr s => pyStrip s
  | .bool _ => ""
  | .pynone => ""
  | .list vs =>
      pyStrip (joinSpace ((normalizeClassSpecList vs).filter (fun s => !(s == ""))))
  | .dict kvs =>
      pyStrip (joinSpace ((kvs.filter (fun kv => truthy kv.2)).map Prod.fst))

/-- The recursively normalized elements of a sequence, in order. -/
def normalizeClassSpecList : List Value → List String
  | [] => []
  | v :: vs => normalizeClassSpec v :: normalizeClassSpecList vs

end

/-- The slot ids reachable from a `slots` mapping; a render must never write
to these. -/
def IdInSlots (slots : List (String × List ChildNode)) (id : Nat) : Prop :=
  ∃ n refs, (n, refs) ∈ slots ∧ ChildNode.slotRef id ∈ refs

/-- A concrete slot declaring the `:let` scope binding, used to exercise
`render_slot`. -/
def letSlot : SlotNode :=
  { name := "title", nodelist := [TNode.text "hi"], unresolved_attributes := [],
    special := [(":let", FilterExpr.const (Value.str "user"))], attributes := [] }

/-- A concrete slot node carrying resolved attributes, used to exercise
`SlotNodeList.attributes`. -/
def titleSlot : SlotNode :=
  { name := "title", nodelist := [], unresolved_attributes := [],
    special := [], attributes := [("foo", Value.str "bar")] }

/-!  #  Theorems

First, auxiliary lemmas about `pyStrip` and the joining helpers. -/

theorem dropWhile_cons_neg {x : Char} {l : List Char}
    (h : pyWhitespace x = false) :
    List.dropWhile pyWhitespace (x :: l) = x :: l := by
  simp [List.dropWhile_cons, h]

theorem pyStripChars_concat_space (l : List Char) :
    pyStripChars (l ++ [' ']) = pyStripChars l := by
  simp [pyStripChars, List.dropWhile_cons, pyWhitespace]

theorem pyStrip_append_space (s : String) : pyStrip (s ++ " ") = pyStrip s := by
  have h : (s ++ " ").data = s.data ++ [' '] := String.data_append s " "
  simp [pyStrip, h, pyStripChars_concat_space]

theorem joinTrail_eq_joinSpace (qs : List String) (h : qs ≠ []) :
    joinTrail qs = joinSpace qs ++ " " := by
  induction qs with
  | nil => exact absurd rfl h
  | cons q rest ih =>
      cases rest with
      | nil => simp [joinTrail, joinSpace]
      | cons r rest2 =>
          rw [joinTrail, ih (by simp)]
          simp [joinSpace, String.append_assoc]

theorem pyStrip_joinTrail (qs : List String) :
    pyStrip (joinTrail qs) = pyStrip (joinSpace qs) := by
  cases qs with
  | nil => rfl
  | cons q rest =>
      rw [joinTrail_eq_joinSpace _ (by simp), pyStrip_append_space]

theorem normalizeClassDict_acc (kvs : List (String × Value)) :
    ∀ acc, normalizeClassDict kvs acc =
      acc ++ joinTrail ((kvs.filter (fun kv => truthy kv.2)).map Prod.fst) := by
  induction kvs with
  | nil => intro acc; simp [normalizeClassDict, joinTrail]
  | cons kv rest ih =>
      intro acc
      obtain ⟨key, val⟩ := kv
      cases hkv : truthy val with
      | false => simp [normalizeClassDict, hkv, ih, List.filter_cons, joinTrail]
      | true =>
          simp [normalizeClassDict, hkv, ih, List.filter_cons, joinTrail,
            String.append_assoc]

theorem pyStrip_empty : pyStrip "" = "" := rfl

theorem pyStripChars_self_both {l : List Char} (h : pyStripChars l = l) :
    List.dropWhile pyWhitespace l = l ∧
    List.dropWhile pyWhitespace l.reverse = l.reverse := by
  have h1 : (List.dropWhile pyWhitespace l.reverse).length ≤ l.length := by
    simpa using (List.dropWhile_suffix (l := l.reverse) pyWhitespace).length_le
  have h2 : (pyStripChars l).length ≤
      (List.dropWhile pyWhitespace l.reverse).length := by
    simpa [pyStripChars] using
      (List.dropWhile_suffix
        (l := (List.dropWhile pyWhitespace l.reverse).reverse) pyWhitespace).length_le
  rw [h] at h2
  have hlen : (List.dropWhile pyWhitespace l.reverse).length = l.reverse.length := by
    simp only [List.length_reverse]
    omega
  have hr : List.dropWhile pyWhitespace l.reverse = l.reverse :=
    (List.dropWhile_suffix pyWhitespace).eq_of_length hlen
  refine ⟨?_, hr⟩
  have h3 := h
  rw [pyStripChars, hr, List.reverse_reverse] at h3
  exact h3

theorem head_not_pyWhitespace {x : Char} {xs : List Char}
    (h : List.dropWhile pyWhitespace (x :: xs) = x :: xs) :
    pyWhitespace x = false := by
  by_contra hc
  have hx : pyWhitespace x = true := by simpa using hc
  rw [List.dropWhile_cons, if_pos hx] at h
  have hle := (List.dropWhile_suffix (l := xs) pyWhitespace).length_le
  rw [h] at hle
  simp at hle

theorem dropWhile_cons_append_neg {x : Char} {xs r : List Char}
    (h : pyWhitespace x = false) :
    List.dropWhile pyWhitespace ((x :: xs) ++ r) = (x :: xs) ++ r := by
  simp [List.dropWhile_cons, h]

theorem pyStripChars_concat_trimmed {a b : List Char}
    (ha : pyStripChars a = a) (hb : pyStripChars b = b)
    (ha0 : a ≠ []) (hb0 : b ≠ []) :
    pyStripChars (a ++ [' '] ++ b) = a ++ [' '] ++ b := by
  obtain ⟨hafront, _⟩ := pyStripChars_self_both ha
  obtain ⟨_, hbback⟩ := pyStripChars_self_both hb
  obtain ⟨x, xs, rfl⟩ : ∃ x xs, a = x :: xs := by
    cases a with
    | nil => exact absurd rfl ha0
    | cons x xs => exact ⟨x, xs, rfl⟩
  have hx : pyWhitespace x = false := head_not_pyWhitespace hafront
  obtain ⟨y, ys, hy⟩ : ∃ y ys, b.reverse = y :: ys := by
    cases hbr : b.reverse with
    | nil => exact absurd (by simpa using congrArg List.reverse hbr) hb0
    | cons y ys => exact ⟨y, ys, rfl⟩
  have hyw : pyWhitespace y = false := by
    rw [hy] at hbback
    exact head_not_pyWhitespace hbback
  have hrev : (x :: xs ++ [' '] ++ b).reverse = (y :: ys) ++ (' ' :: (xs.reverse ++ [x])) := by
    rw [← hy]
    simp [List.reverse_append]
  rw [pyStripChars, hrev, dropWhile_cons_append_neg hyw, ← hrev, List.reverse_reverse]
  exact dropWhile_cons_append_neg hx

theorem pyStrip_concat_trimmed {s t : String}
    (hs : pyStrip s = s) (ht : pyStrip t = t) (hs0 : s ≠ "") (ht0 : t ≠ "") :
    pyStrip (s ++ " " ++ t) = s ++ " " ++ t := by
  obtain ⟨sd⟩ := s
  obtain ⟨td⟩ := t
  have hsd : pyStripChars sd = sd := congrArg String.data hs
  have htd : pyStripChars td = td := congrArg String.data ht
  have hsd0 : sd ≠ [] := fun hcase => hs0 (by simp [hcase])
  have htd0 : td ≠ [] := fun hcase => ht0 (by simp [hcase])
  show String.mk (pyStripChars (sd ++ [' '] ++ td)) = String.mk (sd ++ [' '] ++ td)
  rw [pyStripChars_concat_trimmed hsd htd hsd0 htd0]

mutual

theorem normalize_class_eq_spec :
    (v : Value) → normalize_class v = normalizeClassSpec v
  | .str _ => rfl
  | .safeStr _ => rfl
  | .bool _ => rfl
  | .pynone => rfl
  | .list vs => by
      rw [normalize_class, normalizeClassSpec, normalizeClassList_acc vs "",
        String.empty_append, pyStrip_joinTrail]
  | .dict kvs => by
      rw [normalize_class, normalizeClassSpec, normalizeClassDict_acc kvs "",
        String.empty_append, pyStrip_joinTrail]

theorem normalizeClassList_acc :
    (vs : List Value) → ∀ acc, normalizeClassList vs acc =
      acc ++ joinTrail ((normalizeClassSpecList vs).filter (fun s => !(s == "")))
  | [] => by intro acc; simp [normalizeClassList, normalizeClassSpecList, joinTrail]
  | v :: vs => by
      intro acc
      rw [normalizeClassList, normalizeClassList_acc vs _, normalize_class_eq_spec v]
      rw [normalizeClassSpecList]
      by_cases h : normalizeClassSpec v = ""
      · simp [h, List.filter_cons]
      · have hb : (normalizeClassSpec v == "") = false := by
          simp [h]
        simp [hb, List.filter_cons, joinTrail, String.append_assoc]

end


theorem normalize_class_pair_none {s : String} (hs : pyStrip s = s) (hs0 : s ≠ "") :
    normalize_class (Value.list [Value.pynone, Value.str s]) = s := by
  have hb2 : (s == "") = false := beq_eq_false_iff_ne.mpr hs0
  rw [normalize_class, normalizeClassList_acc]
  simp only [normalizeClassSpecList, normalizeClassSpec, hs, pyStrip_empty]
  rw [show List.filter (fun s => !(s == "")) ["", s] = [s] by
    simp [List.filter_cons, hb2]]
  rw [String.empty_append, joinTrail, joinTrail, String.append_empty,
    pyStrip_append_space, hs]

theorem normalize_class_pair {s t : String}
    (hs : pyStrip s = s) (ht : pyStrip t = t) (hs0 : s ≠ "") (ht0 : t ≠ "") :
    normalize_class (Value.list [Value.str s, Value.str t]) = s ++ " " ++ t := by
  have hb2 : (s == "") = false := beq_eq_false_iff_ne.mpr hs0
  have ht2 : (t == "") = false := beq_eq_false_iff_ne.mpr ht0
  rw [normalize_class, normalizeClassList_acc]
  simp only [normalizeClassSpecList, normalizeClassSpec, hs, ht]
  rw [show List.filter (fun s => !(s == "")) [s, t] = [s, t] by
    simp [List.filter_cons, hb2, ht2]]
  rw [String.empty_append, joinTrail, joinTrail, joinTrail, String.append_empty]
  rw [← String.append_assoc, pyStrip_append_space,
    pyStrip_concat_trimmed hs ht hs0 ht0]

theorem merge_two_class_bags {s t : String}
    (hs : pyStrip s = s) (ht : pyStrip t = t) (hs0 : s ≠ "") (ht0 : t ≠ "")
    (hne : s ≠ t) :
    merge_attributes [[("class", Value.str s)], [("class", Value.str t)]] =
      [("class", Value.str (s ++ " " ++ t))] := by
  have hp1 : pyEq Value.pynone (Value.str s) = false := rfl
  have hp2 : pyEq (Value.str s) (Value.str t) = false := by
    simp [pyEq, hne]
  have h1 : mergeInto [] ("class", Value.str s) = [("class", Value.str s)] := by
    simp [mergeInto, dictGet, dictInsert, hp1, normalize_class_pair_none hs hs0]
  have h2 : mergeInto [("class", Value.str s)] ("class", Value.str t) =
      [("class", Value.str (s ++ " " ++ t))] := by
    simp [mergeInto, dictGet, dictInsert, hp2, normalize_class_pair hs ht hs0 ht0]
  simp [merge_attributes, h1, h2]

/-- Claim C2 (counterexample): `merge_attributes` on `{class: "a"}` then
`{class: "b"}` does not produce `{class: "b a"}`; the earlier value comes
first. -/
theorem merge_class_order_counterexample :
    merge_attributes [[("class", Value.str "a")], [("class", Value.str "b")]] ≠
      [("class", Value.str "b a")] := by
  intro h
  rw [show merge_attributes [[("class", Value.str "a")], [("class", Value.str "b")]] =
      [("class", Value.str "a b")] from rfl] at h
  simp at h

/-- Claim C2 (amended): `merge_attributes` applied to bags `{class: s}` and
`{class: t}` (trimmed, non-empty, distinct class strings), in that order,
returns `{class: s ++ " " ++ t}`: both values are present space-separated,
the earlier value first and the later value appended after it, never
overwriting; in particular merging `{class: "a"}` then `{class: "b"}` gives
`{class: "a b"}`. -/
theorem merge_appends_later_class_after_earlier :
    (∀ s t : String, pyStrip s = s → pyStrip t = t → s ≠ "" → t ≠ "" → s ≠ t →
      merge_attributes [[("class", Value.str s)], [("class", Value.str t)]] =
        [("class", Value.str (s ++ " " ++ t))]) ∧
    merge_attributes [[("class", Value.str "a")], [("class", Value.str "b")]] =
      [("class", Value.str "a b")] := by
  constructor
  · intro s t hs ht hs0 ht0 hne
    exact merge_two_class_bags hs ht hs0 ht0 hne
  · rfl

/-- Witness for the amended claim C2, at the concrete classes `"a"` and
`"b"`. -/
theorem merge_appends_later_class_after_earlier_witness :
    merge_attributes [[("class", Value.str "a")], [("class", Value.str "b")]] =
      [("class", Value.str ("a" ++ " " ++ "b"))] :=
  merge_appends_later_class_after_earlier.1 "a" "b" rfl rfl (by decide) (by decide)
    (by decide)

/-- Claim C7 (counterexample): `normalize_class` does not return a string
argument unchanged; the string is stripped of surrounding whitespace. -/
theorem normalize_class_string_counterexample :
    normalize_class (Value.str " a") ≠ " a" := by
  simp [show normalize_class (Value.str " a") = "a" from rfl]

/-- Claim C7 (amended): `normalize_class` is polymorphic over string, sequence
and mapping inputs, agreeing with the spec-side `normalizeClassSpec`: a string
is returned stripped of surrounding whitespace; a list is normalized by
recursively normalizing each element and joining the non-empty results with
single spaces (stripped); a dict contributes exactly its keys whose values are
truthy, space-separated (stripped); in particular
`normalize_class ["a", ["b","c"], {d: true, e: false}] = "a b c d"`. -/
theorem normalize_class_follows_spec :
    (∀ v, normalize_class v = normalizeClassSpec v) ∧
    normalize_class (Value.list [Value.str "a",
      Value.list [Value.str "b", Value.str "c"],
      Value.dict [("d", Value.bool true), ("e", Value.bool false)]]) = "a b c d" :=
  ⟨normalize_class_eq_spec, rfl⟩

/-- Claim C10: `merge_attributes` never appends a class value equal to the
accumulated class value: the merge step leaves the result unchanged whenever
the incoming class value compares equal to the accumulated one, and in
particular merging `{class: "a"}` with `{class: "a"}` yields `{class: "a"}`,
not `{class: "a a"}`. -/
theorem merge_skips_equal_class_value :
    (∀ (result : AttrBag) (value : Value),
        pyEq ((dictGet result "class").getD Value.pynone) value = true →
        mergeInto result ("class", value) = result) ∧
    merge_attributes [[("class", Value.str "a")], [("class", Value.str "a")]] =
      [("class", Value.str "a")] := by
  constructor
  · intro result value h
    simp [mergeInto, h]
  · rfl

/-- Witness for claim C10, at the accumulated class `"a"` and incoming class
`"a"`. -/
theorem merge_skips_equal_class_value_witness :
    mergeInto [("class", Value.str "a")] ("class", Value.str "a") =
      [("class", Value.str "a")] :=
  merge_skips_equal_class_value.1 [("class", Value.str "a")] (Value.str "a") rfl

theorem attrList_foldl_eq_filterMap (bag : AttrBag) :
    ∀ init, bag.foldl attrListStep init =
      init ++ bag.filterMap serializeEntrySpec := by
  induction bag with
  | nil => intro init; simp
  | cons kv rest ih =>
      intro init
      obtain ⟨k, v⟩ := kv
      cases v with
      | pynone => simp [attrListStep, serializeEntrySpec, ih]
      | bool b =>
          cases b with
          | false => simp [attrListStep, serializeEntrySpec, ih]
          | true =>
              simp [attrListStep, serializeEntrySpec, ih, conditional_escape, pyStrOf]
      | str s =>
          simp [attrListStep, serializeEntrySpec, ih, format_html_kv,
            conditional_escape, pyStrOf]
      | safeStr s =>
          simp [attrListStep, serializeEntrySpec, ih, format_html_kv,
            conditional_escape, pyStrOf]
      | list vs =>
          simp [attrListStep, serializeEntrySpec, ih, format_html_kv,
            conditional_escape, pyStrOf]
      | dict kvs =>
          simp [attrListStep, serializeEntrySpec, ih, format_html_kv,
            conditional_escape, pyStrOf]

theorem attributes_to_string_eq_spec (bag : AttrBag) :
    attributes_to_string bag = attributesToStringSpec bag := by
  simp [attributes_to_string, attributesToStringSpec, attrList_foldl_eq_filterMap]

/-- Claim C5: `attributes_to_string` (and `AttributeBag.__str__`, which
delegates to it) serializes by visiting keys in insertion order, skipping
`None`/`False` entries, emitting the escaped key alone for `True` and
`key="escaped(value)"` otherwise, joined by single spaces; the empty bag
serializes to the empty string. -/
theorem attributes_serialization_follows_spec :
    (∀ bag : AttrBag, attributes_to_string bag = attributesToStringSpec bag ∧
      AttributeBag.str bag = attributesToStringSpec bag) ∧
    attributes_to_string [] = mark_safe "" :=
  ⟨fun bag => ⟨attributes_to_string_eq_spec bag, attributes_to_string_eq_spec bag⟩,
    rfl⟩

/-- Claim C6: serializing any attribute bag (in particular any bag produced by
`merge_attributes`) never escapes a value already marked safe a second time —
the entry emitted for a safe-marked value contains the value exactly as given —
and the string returned by `attributes_to_string` is itself marked safe. -/
theorem safe_values_not_reescaped :
    ∀ (bag : AttrBag) (k v : String), (k, Value.safeStr v) ∈ bag →
      ((escape k ++ "=\"" ++ v ++ "\"") ∈ bag.filterMap serializeEntrySpec ∧
        attributes_to_string bag =
          mark_safe (String.intercalate " " (bag.filterMap serializeEntrySpec)) ∧
        (attributes_to_string bag).isSafe = true) := by
  intro bag k v hmem
  refine ⟨?_, ?_, ?_⟩
  · exact List.mem_filterMap.mpr ⟨(k, Value.safeStr v), hmem,
      by simp [serializeEntrySpec, conditional_escape]⟩
  · exact attributes_to_string_eq_spec bag
  · simp [attributes_to_string, mark_safe]

/-- Witness for claim C6, at a bag holding one safe-marked value that contains
an ampersand. -/
theorem safe_values_not_reescaped_witness :
    (escape "x" ++ "=\"" ++ "a&b" ++ "\"") ∈
        ([("x", Value.safeStr "a&b")] : AttrBag).filterMap serializeEntrySpec ∧
      attributes_to_string [("x", Value.safeStr "a&b")] =
        mark_safe (String.intercalate " "
          (([("x", Value.safeStr "a&b")] : AttrBag).filterMap serializeEntrySpec)) ∧
      (attributes_to_string [("x", Value.safeStr "a&b")]).isSafe = true :=
  safe_values_not_reescaped [("x", Value.safeStr "a&b")] "x" "a&b" (by simp)

/-- Claim C3 (counterexample): parsing a component invocation with no block
body and no children does not yield an empty `slots` mapping; the default
slot name is present, bound to an empty `SlotNodeList`. -/
theorem childless_component_slots_counterexample :
    (do_component "hello" [] [] []).2.slots ≠ [] := by
  rw [show (do_component "hello" [] [] []).2.slots = [(DEFAULT_SLOT_NAME, [])]
    from rfl]
  simp

/-- Claim C3 (amended): parsing a component invocation with no block body and
no children produces a `ComponentNode` whose `slots` mapping holds exactly the
default slot name bound to an empty `SlotNodeList` (the entry is created
unconditionally); the default `SlotNode` itself is filed into that entry only
when the default-slot buffer of non-slot children is non-empty, so here the
entry stays empty. -/
theorem childless_component_has_empty_default_slot_entry :
    ∀ (component_name : String) (bits : List String) (store : Store),
      (do_component component_name bits [] store).2.slots =
        [(DEFAULT_SLOT_NAME, [])] := by
  intro component_name bits store
  rfl

/-- Claim C8: every remaining token without an `=` is rewritten to
`token=True` before keyword parsing, and parsing the invocation
`hello class="foo" required` yields, in every context, the resolved attributes
`{class: "foo", required: true}`. -/
theorem bare_tokens_parsed_as_true :
    (∀ (bits : List String) (bit : String), bit ∈ bits →
        '=' ∉ bit.data → (bit ++ "=True") ∈ componentAllBits bits) ∧
    (∀ context : Ctx,
        resolveAttributes context
            (split_attributes
              (token_kwargs (componentAllBits ["class=\"foo\"", "required"]))).2 =
          [("class", Value.str "foo"), ("required", Value.bool true)]) := by
  constructor
  · intro bits bit hmem hcont
    exact List.mem_map.mpr ⟨bit, hmem, by simp [hcont]⟩
  · intro context
    rfl

/-- Witness for claim C8, at the bare flag `required` and the concrete
invocation of the claim. -/
theorem bare_tokens_parsed_as_true_witness :
    ("required" ++ "=True") ∈ componentAllBits ["required"] ∧
      resolveAttributes []
          (split_attributes
            (token_kwargs (componentAllBits ["class=\"foo\"", "required"]))).2 =
        [("class", Value.str "foo"), ("required", Value.bool true)] :=
  ⟨bare_tokens_parsed_as_true.1 ["required"] "required" (by simp) (by decide),
    bare_tokens_parsed_as_true.2 []⟩

/-- Claim C9: `SlotNodeList.attributes` returns the attributes of the single
element when the list has exactly one element and that element exposes an
`attributes` field; in every other case (empty list, several elements, or a
single element without attributes) it returns the empty `AttributeBag`. -/
theorem slot_node_list_attributes_single_or_empty :
    ∀ (store : Store) (l : List ChildNode),
      (∀ id r, l = [ChildNode.slotRef id] → store[id]? = some r →
          SlotNodeList.attributes store l = r.attributes) ∧
      (∀ t, l = [ChildNode.plain t] → SlotNodeList.attributes store l = []) ∧
      (l.length ≠ 1 → SlotNodeList.attributes store l = []) := by
  intro store l
  refine ⟨?_, ?_, ?_⟩
  · intro id r hl hget
    subst hl
    simp [SlotNodeList.attributes, hget]
  · intro t hl
    subst hl
    rfl
  · intro hlen
    cases l with
    | nil => rfl
    | cons a rest =>
        cases rest with
        | nil => exact absurd rfl hlen
        | cons b rest2 => cases a <;> rfl

/-- Witness for claim C9: a singleton slot list yields the slot's attributes,
a singleton text node and the empty list yield the empty bag. -/
theorem slot_node_list_attributes_witness :
    SlotNodeList.attributes [titleSlot] [ChildNode.slotRef 0] =
        titleSlot.attributes ∧
      SlotNodeList.attributes [] [ChildNode.plain (TNode.text "x")] = [] ∧
      SlotNodeList.attributes [] [] = [] :=
  ⟨(slot_node_list_attributes_single_or_empty [titleSlot]
      [ChildNode.slotRef 0]).1 0 titleSlot rfl rfl,
    (slot_node_list_attributes_single_or_empty []
      [ChildNode.plain (TNode.text "x")]).2.1 (TNode.text "x") rfl,
    (slot_node_list_attributes_single_or_empty [] []).2.2 (by decide)⟩

/-- Claim C4 (counterexample): rendering a slot that declares `:let` through
`render_slot` without an argument does not raise: on a concrete such slot the
call returns the rendered body, not an error. -/
theorem render_slot_missing_argument_counterexample :
    RenderSlotNode.render_slot (SlotRenderable.slot letSlot) none [] =
        Except.ok "hi" ∧
      RenderSlotNode.render_slot (SlotRenderable.slot letSlot) none [] ≠
        Except.error RenderError.missingScopeArgument := by
  constructor
  · rfl
  · rw [show RenderSlotNode.render_slot (SlotRenderable.slot letSlot) none [] =
        Except.ok "hi" from rfl]
    simp

/-- Claim C4 (amended): for every slot node that declares the scope-binding
special attribute `:let`, rendering it via `render_slot` without an argument
does not raise any error; the slot is rendered exactly as if no binding were
declared. -/
theorem render_slot_without_argument_renders_unbound :
    ∀ (s : SlotNode) (context : Ctx), (dictGet s.special ":let").isSome = true →
      RenderSlotNode.render_slot (SlotRenderable.slot s) none context =
        Except.ok (s.render context) := by
  intro s context _
  rfl

/-- Witness for the amended claim C4, at a concrete `:let` slot. -/
theorem render_slot_without_argument_renders_unbound_witness :
    RenderSlotNode.render_slot (SlotRenderable.slot letSlot) none [] =
      Except.ok (letSlot.render []) :=
  render_slot_without_argument_renders_unbound letSlot [] rfl

theorem cloneSlotStep_store (slot_name : String) (context : Ctx)
    (acc : Store × List (String × List ChildNode)) (slot : ChildNode) :
    ∃ t, (cloneSlotStep slot_name context acc slot).1 = acc.1 ++ t := by
  cases slot with
  | plain tn => exact ⟨[], by simp [cloneSlotStep]⟩
  | slotRef id =>
      cases h : acc.1[id]? with
      | none => exact ⟨[], by simp [cloneSlotStep, h]⟩
      | some r =>
          exact ⟨[(SlotNode.mk r.name r.nodelist r.unresolved_attributes r.special
            []).resolve_attributes context], by simp [cloneSlotStep, h]⟩

theorem foldl_cloneSlotStep_store (slot_name : String) (context : Ctx)
    (l : List ChildNode) :
    ∀ acc, ∃ t, (l.foldl (cloneSlotStep slot_name context) acc).1 = acc.1 ++ t := by
  induction l with
  | nil => intro acc; exact ⟨[], by simp⟩
  | cons c rest ih =>
      intro acc
      obtain ⟨t1, h1⟩ := cloneSlotStep_store slot_name context acc c
      obtain ⟨t2, h2⟩ := ih (cloneSlotStep slot_name context acc c)
      exact ⟨t1 ++ t2, by rw [List.foldl_cons, h2, h1, List.append_assoc]⟩

theorem cloneSlotList_store (context : Ctx)
    (acc : Store × List (String × List ChildNode))
    (pair : String × List ChildNode) :
    ∃ t, (cloneSlotList context acc pair).1 = acc.1 ++ t :=
  foldl_cloneSlotStep_store pair.1 context pair.2
    (acc.1, if (dictGet acc.2 pair.1).isSome then acc.2 else acc.2 ++ [(pair.1, [])])

theorem foldl_cloneSlotList_store (context : Ctx)
    (pairs : List (String × List ChildNode)) :
    ∀ acc, ∃ t, (pairs.foldl (cloneSlotList context) acc).1 = acc.1 ++ t := by
  induction pairs with
  | nil => intro acc; exact ⟨[], by simp⟩
  | cons p rest ih =>
      intro acc
      obtain ⟨t1, h1⟩ := cloneSlotList_store context acc p
      obtain ⟨t2, h2⟩ := ih (cloneSlotList context acc p)
      exact ⟨t1 ++ t2, by rw [List.foldl_cons, h2, h1, List.append_assoc]⟩

theorem render_store_extends (self : ComponentNode) (store : Store)
    (context : Ctx) : ∃ t, (self.render store context).1 = store ++ t :=
  foldl_cloneSlotList_store context self.slots (store, [])

theorem renderMany_extends (self : ComponentNode) (contexts : List Ctx) :
    ∀ store, ∃ t, renderMany self store contexts = store ++ t := by
  induction contexts with
  | nil => intro store; exact ⟨[], by simp [renderMany]⟩
  | cons c rest ih =>
      intro store
      obtain ⟨t1, h1⟩ := render_store_extends self store c
      obtain ⟨t2, h2⟩ := ih ((self.render store c).1)
      refine ⟨t1 ++ t2, ?_⟩
      show (renderMany self ((self.render store c).1) rest) = store ++ (t1 ++ t2)
      rw [h2, h1, List.append_assoc]

theorem getElem?_of_extend {store t : Store} {id : Nat} (h : id < store.length) :
    (store ++ t)[id]? = store[id]? := by
  simp [List.getElem?_append, h]

theorem mem_dictAppend {α : Type} {m : List (String × List α)} {k n : String}
    {x : α} {refs : List α} (h : (n, refs) ∈ dictAppend m k x) :
    ∃ refs0, (n, refs0) ∈ m ∧ (refs = refs0 ∨ refs = refs0 ++ [x]) := by
  obtain ⟨kv, hkv, heq⟩ := List.mem_map.mp h
  by_cases hk : kv.1 = k
  · rw [if_pos hk] at heq
    obtain ⟨h1, h2⟩ := Prod.mk.injEq .. ▸ heq
    refine ⟨kv.2, ?_, Or.inr h2.symm⟩
    rw [← h1]
    exact hkv
  · rw [if_neg hk] at heq
    subst heq
    exact ⟨refs, hkv, Or.inl rfl⟩

theorem IdInSlots_bucketChild {store : Store}
    {slots : List (String × List ChildNode)} {c : ChildNode} {id : Nat}
    (h : IdInSlots (bucketChild store slots c) id) :
    IdInSlots slots id ∨ c = ChildNode.slotRef id := by
  cases c with
  | plain tn => exact Or.inl (by simpa [bucketChild] using h)
  | slotRef j =>
      obtain ⟨n, refs, hmem, hid⟩ := h
      simp only [bucketChild] at hmem
      obtain ⟨refs0, hmem0, hcase⟩ := mem_dictAppend hmem
      have hmem1 : (n, refs0) ∈ slots ∨ refs0 = [] := by
        by_cases hc : (dictGet slots ((store[j]?.map SlotNode.name).getD "")).isSome
        · rw [if_pos hc] at hmem0
          exact Or.inl hmem0
        · rw [if_neg hc] at hmem0
          rcases List.mem_append.mp hmem0 with h1 | h1
          · exact Or.inl h1
          · right
            have := List.mem_singleton.mp h1
            exact (Prod.mk.injEq .. ▸ this).2
      cases hcase with
      | inl hrefs =>
          subst hrefs
          cases hmem1 with
          | inl hm => exact Or.inl ⟨n, refs, hm, hid⟩
          | inr hm => rw [hm] at hid; simp at hid
      | inr hrefs =>
          subst hrefs
          rcases List.mem_append.mp hid with h1 | h1
          · cases hmem1 with
            | inl hm => exact Or.inl ⟨n, refs0, hm, h1⟩
            | inr hm => rw [hm] at h1; simp at h1
          · have := List.mem_singleton.mp h1
            right
            rw [this]

theorem IdInSlots_foldl {store : Store} (cs : List ChildNode) :
    ∀ acc id, IdInSlots (cs.foldl (bucketChild store) acc) id →
      IdInSlots acc id ∨ ChildNode.slotRef id ∈ cs := by
  induction cs with
  | nil => intro acc id h; exact Or.inl h
  | cons c rest ih =>
      intro acc id h
      rw [List.foldl_cons] at h
      rcases ih (bucketChild store acc c) id h with h1 | h1
      · rcases IdInSlots_bucketChild h1 with h2 | h2
        · exact Or.inl h2
        · exact Or.inr (h2 ▸ List.mem_cons_self c rest)
      · exact Or.inr (List.mem_cons_of_mem c h1)

theorem IdInSlots_init {id : Nat} : ¬ IdInSlots [(DEFAULT_SLOT_NAME, [])] id := by
  rintro ⟨n, refs, hmem, hid⟩
  have := List.mem_singleton.mp hmem
  injection this with h1 h2
  rw [h2] at hid
  simp at hid

theorem IdInSlots_componentSlots {store : Store} {nodelist : List ChildNode}
    {defaultId : Nat} {defaultBody : List TNode} {id : Nat}
    (h : IdInSlots (componentSlots store nodelist defaultId defaultBody) id) :
    ChildNode.slotRef id ∈ nodelist ∨ id = defaultId := by
  simp only [componentSlots] at h
  by_cases hlen : defaultBody.length > 0
  · rw [if_pos hlen] at h
    obtain ⟨n, refs, hmem, hid⟩ := h
    obtain ⟨refs0, hmem0, hcase⟩ := mem_dictAppend hmem
    have base : ChildNode.slotRef id ∈ refs0 →
        ChildNode.slotRef id ∈ nodelist ∨ id = defaultId := by
      intro h0
      rcases IdInSlots_foldl nodelist [(DEFAULT_SLOT_NAME, [])] id
          ⟨n, refs0, hmem0, h0⟩ with h1 | h1
      · exact absurd h1 IdInSlots_init
      · exact Or.inl h1
    cases hcase with
    | inl hrefs => exact base (hrefs ▸ hid)
    | inr hrefs =>
        subst hrefs
        rcases List.mem_append.mp hid with h1 | h1
        · exact base h1
        · have := List.mem_singleton.mp h1
          right
          exact (ChildNode.slotRef.injEq .. ▸ this)
  · rw [if_neg hlen] at h
    obtain ⟨n, refs, hmem, hid⟩ := h
    rcases IdInSlots_foldl nodelist [(DEFAULT_SLOT_NAME, [])] id
        ⟨n, refs, hmem, hid⟩ with h1 | h1
    · exact absurd h1 IdInSlots_init
    · exact Or.inl h1

/-- Claim C1: `ComponentNode.render` writes resolved attributes only onto
freshly created clones of its `SlotNode`s.  For every parsed component (every
output of `do_component` whose slot children were allocated with the empty
attribute bag, as `SlotNode.__init__` does) and every sequence of rendering
contexts, each original `SlotNode` referenced from the node's `slots` mapping
is unchanged in the store after any number of renders, its `attributes` field
still the empty `AttributeBag` assigned at construction — so re-rendering the
same parsed tree with different attribute values never leaks resolved
attributes from one render into a later one. -/
theorem render_never_mutates_parsed_slots :
    ∀ (component_name : String) (bits : List String) (children : List ChildNode)
      (store : Store) (contexts : List Ctx) (slot_name : String)
      (refs : List ChildNode) (id : Nat),
      (∀ j, ChildNode.slotRef j ∈ children →
          ∃ r, store[j]? = some r ∧ r.attributes = []) →
      (slot_name, refs) ∈ ((do_component component_name bits children store).2).slots →
      ChildNode.slotRef id ∈ refs →
      ∃ r : SlotNode,
        ((do_component component_name bits children store).1)[id]? = some r ∧
        r.attributes = [] ∧
        (renderMany ((do_component component_name bits children store).2)
          ((do_component component_name bits children store).1) contexts)[id]?
          = some r := by
  intro component_name bits children store contexts slot_name refs id hchild hmem hid
  have hstore : (do_component component_name bits children store).1 =
      store ++ [SlotNode.mk DEFAULT_SLOT_NAME (defaultSlotBody children) []
        ((split_attributes (token_kwargs (componentAllBits bits))).1) []] := rfl
  have hslots : ((do_component component_name bits children store).2).slots =
      componentSlots ((do_component component_name bits children store).1)
        children store.length (defaultSlotBody children) := rfl
  have hprov : ChildNode.slotRef id ∈ children ∨ id = store.length :=
    IdInSlots_componentSlots ⟨slot_name, refs, hslots ▸ hmem, hid⟩
  have hr : ∃ r : SlotNode,
      ((do_component component_name bits children store).1)[id]? = some r ∧
      r.attributes = [] ∧ id < store.length + 1 := by
    cases hprov with
    | inl hin =>
        obtain ⟨r, hget, hattr⟩ := hchild id hin
        obtain ⟨hlt, _⟩ := List.getElem?_eq_some.mp hget
        refine ⟨r, ?_, hattr, by omega⟩
        rw [hstore, getElem?_of_extend hlt]
        exact hget
    | inr heq =>
        subst heq
        refine ⟨SlotNode.mk DEFAULT_SLOT_NAME (defaultSlotBody children) []
          ((split_attributes (token_kwargs (componentAllBits bits))).1) [],
          ?_, rfl, by omega⟩
        rw [hstore]
        exact List.getElem?_concat_length store _
  obtain ⟨r, hget1, hattr, hlt1⟩ := hr
  obtain ⟨t, ht⟩ := renderMany_extends
    ((do_component component_name bits children store).2) contexts
    ((do_component component_name bits children store).1)
  refine ⟨r, hget1, hattr, ?_⟩
  have hlen : id < ((do_component component_name bits children store).1).length := by
    rw [hstore]
    simpa using hlt1
  rw [ht, getElem?_of_extend hlen]
  exact hget1

/-- Witness for claim C1: a concrete component with one non-slot child,
rendered once; the original default `SlotNode` at id 0 still carries the empty
attribute bag. -/
theorem render_never_mutates_parsed_slots_witness :
    ∃ r : SlotNode,
      ((do_component "hello" [] [ChildNode.plain (TNode.text "Hello")] []).1)[0]?
          = some r ∧
        r.attributes = [] ∧
        (renderMany ((do_component "hello" [] [ChildNode.plain (TNode.text "Hello")] []).2)
          ((do_component "hello" [] [ChildNode.plain (TNode.text "Hello")] []).1)
          [[[("x", Value.str "y")]]])[0]? = some r :=
  render_never_mutates_parsed_slots "hello" [] [ChildNode.plain (TNode.text "Hello")]
    [] [[[("x", Value.str "y")]]] DEFAULT_SLOT_NAME [ChildNode.slotRef 0] 0
    (by simp)
    (by rw [show ((do_component "hello" [] [ChildNode.plain (TNode.text "Hello")]
          []).2).slots = [(DEFAULT_SLOT_NAME, [ChildNode.slotRef 0])] from rfl]
        exact List.mem_singleton.mpr rfl)
    (by simp)
